import Mathlib

/-!
# Verification of the radicast capture core

A shallow embedding, in Lean 4, of the capture-and-retry core of the
radicast program (Go sources `radiko.go`, the converter-command helper and
the podcast server).  Effectful Go code is embedded as pure functions over
explicit environments that record the outcome of each external effect
(HTTP calls, subprocess runs, filesystem operations); machine-level
details that no claim depends on are carried faithfully as data
(command-argument vectors, XML trees, error strings).

Sections, in order: basic data model, radiko timestamp parsing, program
lookup (`nowProgram`), the recording attempt (`record`), the supervisor
loop (`run`), result collection (`Run` / `ConcatOutput`), persistence
(`RadikoResult.Save`), metadata XML round-trip, converter command
construction, and the stage-2 auth body parse.  Theorems follow all
definitions.
-/

namespace Radicast

/-- Go errors are carried as their message strings; `none` is the Go `nil`
error. -/
abbrev GoErr := String

/-! ## Data model (`radiko.go`)

`RadikoProg` mirrors the Go struct of the same name: five string
attributes and six string elements.  The Go `XMLName xml.Name` field is
the constant element name `prog` and is represented by the element name
in the XML embedding rather than by a record field. -/

structure RadikoProg where
  ft : String
  «to» : String
  ftl : String
  tol : String
  dur : String
  title : String
  subtitle : String
  pfm : String
  desc : String
  info : String
  url : String
  deriving Repr, DecidableEq

/-- One station entry of the schedule document: attribute `id`, element
`name`, and the ordered program list under `scd/progs`. -/
structure RadikoStation where
  id : String
  name : String
  progs : List RadikoProg
  deriving Repr, DecidableEq

/-- `RadikoPrograms`: the parsed schedule document, an ordered station
list. -/
structure RadikoPrograms where
  stations : List RadikoStation
  deriving Repr, DecidableEq

/-- `RadikoResult`: output path of one capture attempt plus the resolved
program and station. -/
structure RadikoResult where
  mp3Path : String
  prog : RadikoProg
  station : String
  deriving Repr, DecidableEq

/-! ## Converter commands (converter helper source file)

`exec.Command(name, arg...)` produces a command whose `Args` slice is the
binary path followed by the arguments; we keep exactly that slice. -/

/-- A subprocess specification: the `Args` vector of the Go `exec.Cmd`,
argv[0] included. -/
structure Cmd where
  args : List String
  deriving Repr, DecidableEq

/-- the Go `regexp.MustCompile("ffmpeg$").MatchString(path)`: with the
end-of-text anchor and no other anchors, the regexp matches iff the
pattern is a suffix of the path. -/
def goMatchSuffix (pat : String) (path : String) : Bool :=
  pat.data.isSuffixOf path.data

/-- `newFfmpegCmd`: ffmpeg decode command; the `bitrate` parameter is
accepted and unused, the audio stream is copied, and title/artist/genre
metadata are embedded. -/
def newFfmpegCmd (ffmpeg bitrate output title author : String) : Cmd :=
  { args := [ffmpeg, "-y", "-i", "-", "-vn", "-acodec", "copy",
             "-metadata", "title=" ++ title,
             "-metadata", "artist=" ++ author,
             "-metadata", "genre=radio",
             output] }

/-- `newAvconvCmd`: avconv decode command; no metadata arguments, audio
stream copied, `bitrate` unused. -/
def newAvconvCmd (avconv bitrate output : String) : Cmd :=
  { args := [avconv, "-y", "-i", "-", "-vn", "-c:a", "copy", output] }

/-- `newConverterCmd`: dispatch on the resolved converter path; the
`ffmpeg$` check runs first, then `avconv$`; any other path is the error
"path should be ffmpeg or avconv". -/
def newConverterCmd (path bitrate output title author : String) :
    Except GoErr Cmd :=
  if goMatchSuffix "ffmpeg" path then
    .ok (newFfmpegCmd path bitrate output title author)
  else if goMatchSuffix "avconv" path then
    .ok (newAvconvCmd path bitrate output)
  else
    .error "path should be ffmpeg or avconv"

/-! ## Radiko timestamps

`FtTime`/`ToTime` call the Go function `time.ParseInLocation` with the fixed layout
`20060102150405` (i.e. `YYYYMMDDHHMMSS`) in `time.Local`, then compare
`.Unix()` values.  We embed the parse as `parseRadikoTime : String →
Option Int` returning Unix seconds.  The local zone of the deployment is
Japan Standard Time (radiko is a Japanese service); its fixed UTC offset
is `radikoLocalOffset`.  All claims are invariant under this offset: it
shifts `ft`, `to` and `now` uniformly. -/

/-- Numeric value of a digit string, most significant digit first
(callers guard that every character is a decimal digit). -/
def digitsVal (cs : List Char) : Nat :=
  cs.foldl (fun a c => a * 10 + (c.toNat - 48)) 0

/-- Gregorian leap-year test. -/
def isLeapYear (y : Nat) : Bool :=
  y % 4 = 0 && (y % 100 ≠ 0 || y % 400 = 0)

/-- Length of month `m` (1-based) in year `y`. -/
def daysInMonth (y m : Nat) : Nat :=
  match m with
  | 1 => 31 | 2 => if isLeapYear y then 29 else 28
  | 3 => 31 | 4 => 30 | 5 => 31 | 6 => 30 | 7 => 31
  | 8 => 31 | 9 => 30 | 10 => 31 | 11 => 30 | 12 => 31
  | _ => 0

/-- Days from the Unix epoch (1970-01-01) to the civil date `y-m-d`,
proleptic Gregorian (floor-division variant of the standard
days-from-civil algorithm). -/
def daysFromCivil (y m d : Int) : Int :=
  let yAdj : Int := if m ≤ 2 then y - 1 else y
  let era : Int := Int.fdiv yAdj 400
  let yoe : Int := yAdj - era * 400
  let mp : Int := if 2 < m then m - 3 else m + 9
  let doy : Int := Int.fdiv (153 * mp + 2) 5 + d - 1
  let doe : Int := yoe * 365 + Int.fdiv yoe 4 - Int.fdiv yoe 100 + doy
  era * 146097 + doe - 719468

/-- UTC offset of the `time.Local` zone of the deployment (JST, UTC+9),
in seconds. -/
def radikoLocalOffset : Int := 9 * 3600

/-- `time.ParseInLocation("20060102150405", s, time.Local).Unix()`:
fixed-width all-digit parse with the Go range validation (month 1–12, day
within the month, hour ≤ 23, minute ≤ 59, second ≤ 59); any violation
or malformed input is a parse error (`none`). -/
def parseRadikoTime (s : String) : Option Int :=
  let cs := s.data
  if cs.length = 14 && cs.all Char.isDigit then
    let y := digitsVal (cs.take 4)
    let mo := digitsVal ((cs.drop 4).take 2)
    let d := digitsVal ((cs.drop 6).take 2)
    let hh := digitsVal ((cs.drop 8).take 2)
    let mi := digitsVal ((cs.drop 10).take 2)
    let ss := digitsVal ((cs.drop 12).take 2)
    if 1 ≤ mo && mo ≤ 12 && 1 ≤ d && d ≤ daysInMonth y mo &&
        hh ≤ 23 && mi ≤ 59 && ss ≤ 59 then
      some (daysFromCivil y mo d * 86400 + (hh * 3600 + mi * 60 + ss : Nat) -
        radikoLocalOffset)
    else none
  else none

/-- `RadikoProg.FtTime().Unix()` as an optional value (`none` = Go parse
error). -/
def RadikoProg.ftTime (p : RadikoProg) : Option Int := parseRadikoTime p.ft

/-- `RadikoProg.ToTime().Unix()` as an optional value. -/
def RadikoProg.toTime (p : RadikoProg) : Option Int := parseRadikoTime p.«to»

/-! ## Program lookup (`Radiko.nowProgram`)

The Go method fetches the daily schedule, then scans: for every station
whose id equals the requested one, walk its program list in order; a
time-parse failure aborts with that error; the first program whose
`[ft, to)` interval contains `now` is returned; if the loops finish,
the error is "not found program".  The HTTP fetch is an environment
outcome; the scan below is the pure part. -/

/-- Inner loop of `nowProgram` over the program list of one station:
`.error` = a timestamp failed to parse, `.ok (some p)` = `p` is the
first program containing `now`, `.ok none` = list exhausted. -/
def scanProgs (now : Int) : List RadikoProg → Except GoErr (Option RadikoProg)
  | [] => .ok none
  | p :: rest =>
    match p.ftTime with
    | none => .error "time parse error"
    | some ft =>
      match p.toTime with
      | none => .error "time parse error"
      | some tt =>
        if ft ≤ now && now < tt then .ok (some p) else scanProgs now rest

/-- Outer loop of `nowProgram` over the station list of the schedule. -/
def scanStations (station : String) (now : Int) :
    List RadikoStation → Except GoErr RadikoProg
  | [] => .error "not found program"
  | s :: rest =>
    if s.id == station then
      match scanProgs now s.progs with
      | .error e => .error e
      | .ok (some p) => .ok p
      | .ok none => scanStations station now rest
    else scanStations station now rest

/-- `Radiko.nowProgram` applied to an already-fetched schedule document:
the pure scan over the station list. -/
def nowProgram (progs : RadikoPrograms) (station : String) (now : Int) :
    Except GoErr RadikoProg :=
  scanStations station now progs.stations

/-- The programs listed under stations with the requested id, in schedule
order (stations in document order, the list of each station in order). -/
def stationPrograms (progs : RadikoPrograms) (station : String) :
    List RadikoProg :=
  (progs.stations.filter (fun s => s.id == station)).flatMap (fun s => s.progs)

/-- Does the `[ft, to)` window of program `p` contain `now` (start inclusive,
end exclusive)?  `false` when either timestamp fails to parse. -/
def progContains (now : Int) (p : RadikoProg) : Bool :=
  match p.ftTime, p.toTime with
  | some ft, some tt => decide (ft ≤ now) && decide (now < tt)
  | _, _ => false

/-- The description the claim gives of current-program lookup: the first listed
program of the station whose `[ft, to)` window contains `now`, else the
not-found error. -/
def currentProgramSpec (progs : RadikoPrograms) (station : String)
    (now : Int) : Except GoErr RadikoProg :=
  match (stationPrograms progs station).find? (progContains now) with
  | some p => .ok p
  | none => .error "not found program"

/-- Every program listed under a station with the requested id has
parseable `ft` and `to` timestamps. -/
def WellFormedFor (progs : RadikoPrograms) (station : String) : Prop :=
  ∀ s ∈ progs.stations, s.id == station →
    ∀ p ∈ s.progs, (RadikoProg.ftTime p).isSome ∧ (RadikoProg.toTime p).isSome

instance (progs : RadikoPrograms) (station : String) :
    Decidable (WellFormedFor progs station) := by
  unfold WellFormedFor; infer_instance

/-! ## One capture attempt (`Radiko.record`)

`record` performs: auth → schedule fetch + current-program scan →
duration from `ToTime` → `FtTime` for the title → the download pipeline
→ an `os.Stat` of the output path.  The outcome of every external effect is a
field of `AttemptEnv`; the control flow below is that of the method. -/

/-- Outcomes of the external effects one `record` call performs. -/
structure AttemptEnv where
  /-- `r.auth(ctx)`: token and area, or its error. -/
  auth : Except GoErr (String × String)
  /-- `r.todayPrograms(ctx, area)`: the fetched schedule, or its error. -/
  schedule : Except GoErr RadikoPrograms
  /-- `time.Now().Unix()` during the program scan. -/
  now : Int
  /-- error returned by `r.download(...)` (`none` = nil). -/
  downloadErr : Option GoErr
  /-- did `os.Stat(output)` succeed after the pipeline returned? -/
  statOk : Bool

/-- `Radiko.record`: returns the Go `(*RadikoResult, error)` pair.  The Go
title string interpolates the formatted start time; no claim depends on
its exact text, so the parsed Unix value is printed in its place. -/
def record (env : AttemptEnv) (output station : String) (buffer : Int) :
    Option RadikoResult × Option GoErr :=
  match env.auth with
  | .error e => (none, some e)
  | .ok (_authtoken, _area) =>
    match env.schedule with
    | .error e => (none, some e)
    | .ok progs =>
      match nowProgram progs station env.now with
      | .error e => (none, some e)
      | .ok prog =>
        match prog.toTime with
        | none => (none, some "time parse error")
        | some tt =>
          let _duration := tt - env.now + buffer
          match prog.ftTime with
          | none => (none, some "time parse error")
          | some ft =>
            let _title := prog.title ++ " (" ++ toString ft ++ ")"
            if env.statOk then
              (some ⟨output, prog, station⟩, env.downloadErr)
            else
              (none, env.downloadErr)

/-! ## The supervisor loop (`Radiko.run`)

Without cancellation, `run` is a sequential retry loop: a `record` call,
then on a nil error return the collected results; on an error, if the
retry counter is below 5, wait a 10-second backoff, increment, and
record again; at the ceiling return the collected results.  A `record`
call may append a result even when it also returns an error.  The
counter `retry` is mirrored here by the remaining-retry `budget`
(`budget = 5 - retry`, so the Go test `retry < 5` is `budget > 0`) to keep the
recursion structural; `idx` is the attempt number used in the output
path `radiko_{idx}.m4a`. -/

/-- Outcome of one `record()` invocation: the appended result (if any)
and the returned error. -/
structure AttemptOutcome where
  ret : Option RadikoResult
  err : Option GoErr
  deriving Repr, DecidableEq

/-- Trace of one supervisor loop execution. -/
structure RunTrace where
  /-- results collected, in capture order. -/
  results : List RadikoResult
  /-- number of `record()` invocations (capture attempts) performed. -/
  attempts : Nat
  /-- the backoff (seconds) waited before each retry, in order. -/
  backoffs : List Nat
  deriving Repr, DecidableEq

/-- The loop of `Radiko.run` from a state with `budget` retries left,
about to perform attempt number `idx`. -/
def runFromAux (attempt : Nat → AttemptOutcome) :
    Nat → Nat → RunTrace
  | budget, idx =>
    let out := attempt idx
    let res := match out.ret with | some r => [r] | none => []
    match out.err with
    | none => ⟨res, 1, []⟩
    | some _ =>
      match budget with
      | 0 => ⟨res, 1, []⟩
      | b + 1 =>
        let rest := runFromAux attempt b (idx + 1)
        ⟨res ++ rest.results, 1 + rest.attempts, 10 :: rest.backoffs⟩

/-- `Radiko.run` without external cancellation: retry counter starts at
0, ceiling 5, so the initial budget is 5 retries. -/
def runModel (attempt : Nat → AttemptOutcome) : RunTrace :=
  runFromAux attempt 5 0

/-! ## Cancellation drains (`Radiko.run` / `Radiko.download`)

On `ctx.Done()`, `run` selects between the error channel of the in-flight `record`
channel and `time.After(10s)`; `download` kills the capture process and
then receives from its error channel with **no** timeout, substituting
`ctx.Err()` only when the drained error is nil.  Each drain is embedded
as a function of the completion signal: `none` = the signal never
arrives, `some (t, e)` = the signal delivers error `e` a duration of `t`
seconds after cancellation (ties at the timeout boundary resolved in
favour of the signal). -/

/-- What a cancellation-path channel drain does. -/
inductive WaitOutcome where
  /-- the completion signal was received, `t` seconds after cancellation. -/
  | received (err : Option GoErr) (t : Nat)
  /-- gave up waiting `t` seconds after cancellation. -/
  | timedOut (t : Nat)
  /-- blocked forever: no signal, no timeout case in the select. -/
  | neverReturns
  deriving Repr, DecidableEq

/-- The `ctx.Done()` branch of `run`: select on the error channel versus
`time.After(time.Second * 10)`. -/
def runCancelDrain (signal : Option (Nat × Option GoErr)) : WaitOutcome :=
  match signal with
  | some (t, e) => if t ≤ 10 then .received e t else .timedOut 10
  | none => .timedOut 10

/-- The `ctx.Done()` branch of `download` after killing rtmpdump: a bare
`<-errChan` receive, with no timeout case. -/
def downloadCancelDrain (signal : Option (Nat × Option GoErr)) : WaitOutcome :=
  match signal with
  | some (t, e) => .received e t
  | none => .neverReturns

/-- The error substitution of `download` after the drain: `if err == nil
{ err = ctx.Err() }`. -/
def downloadCancelErr (signalErr : Option GoErr) (ctxErr : GoErr) : GoErr :=
  match signalErr with
  | none => ctxErr
  | some e => e

/-- The whole `ctx.Done()` branch of `run`: log the context error,
drain the error channel of the in-flight `record` (bounded, via
`runCancelDrain`), then `return results` — the shared slice holding
every result the completed `record` calls appended, in capture order.
`acc` is that slice's content from the already-completed attempts;
`inflight` is the result the in-flight `record` appends on completion
(`none` when it yields no result), visible in the slice exactly when its
completion signal is drained, since the append precedes the channel
send. -/
def runCancel (acc : List RadikoResult) (inflight : Option RadikoResult)
    (signal : Option (Nat × Option GoErr)) :
    WaitOutcome × List RadikoResult :=
  match runCancelDrain signal with
  | .received e t =>
    (.received e t,
     acc ++ (match inflight with | some r => [r] | none => []))
  | o => (o, acc)

/-- A drain returns within `b` seconds of cancellation. -/
def ReturnsWithin (b : Nat) : WaitOutcome → Prop
  | .received _ t => t ≤ b
  | .timedOut t => t ≤ b
  | .neverReturns => False

instance (b : Nat) (o : WaitOutcome) : Decidable (ReturnsWithin b o) :=
  match o with
  | .received _ t => inferInstanceAs (Decidable (t ≤ b))
  | .timedOut t => inferInstanceAs (Decidable (t ≤ b))
  | .neverReturns => inferInstanceAs (Decidable False)

/-! ## Result collection (`Radiko.Run` and `Radiko.ConcatOutput`)

`Run` switches on the number of collected results: zero is the error
"empty outputs", one becomes the session result unchanged, more than one
go through one `ConcatOutput` call.  `ConcatOutput` builds a converter
command over the single `concat:` pseudo-input joining the output paths
in order, runs it (outcome `cmdErr`), and on success returns a result at
the concat path carrying the program and station of the first result. -/

/-- `filepath.Join(dir, "radiko_concat.m4a")` (no claim depends on path
normalization, so plain separator concatenation). -/
def concatOutputPath (dir : String) : String := dir ++ "/radiko_concat.m4a"

/-- The argument vector of the concat invocation (`cmd.Args`): converter
path, `-i concat:p₁|p₂|…` in capture order, `-acodec copy`, output. -/
def concatArgs (converter dir : String) (results : List RadikoResult) :
    List String :=
  [converter, "-i",
   "concat:" ++ String.intercalate "|" (results.map (fun r => r.mp3Path)),
   "-acodec", "copy", concatOutputPath dir]

/-- `Radiko.ConcatOutput`: the command it runs and the Go
`(*RadikoResult, error)` outcome.  `Run` only calls it with at least two
results; on an empty list the Go code would fault at `results[0]`, kept
here as an error value on a path the supervisor never takes. -/
def ConcatOutput (converter dir : String) (results : List RadikoResult)
    (cmdErr : Option GoErr) : Cmd × Except GoErr RadikoResult :=
  let cmd : Cmd := ⟨concatArgs converter dir results⟩
  match cmdErr with
  | some e => (cmd, .error e)
  | none =>
    match results with
    | [] => (cmd, .error "index out of range")
    | r0 :: _ => (cmd, .ok ⟨concatOutputPath dir, r0.prog, r0.station⟩)

/-- `Radiko.Run` applied to the collected results: the session outcome
plus the list of merge invocations performed (empty or a singleton). -/
def RadikoRun (tempDir converter : String) (results : List RadikoResult)
    (concatCmdErr : Option GoErr) : Except GoErr RadikoResult × List Cmd :=
  match results with
  | [] => (.error "empty outputs", [])
  | [r] => (.ok r, [])
  | _ =>
    let (cmd, res) := ConcatOutput converter tempDir results concatCmdErr
    (res, [cmd])

/-! ## Persistence (`RadikoResult.Save`)

`Save` makes the program directory, moves the audio artifact to
`podcast.m4a` via `RenameOrCopy`, creates `podcast.xml`, and encodes the
program into it; the first failing step returns its error.  The
directory starts without either file.  `RenameOrCopy` is not among the
provided sources; its post-state is modelled from the spec:
rename-or-copy semantics, so on success the destination file exists and
on failure it does not.  `os.Create` on success creates the (empty)
sidecar file, which remains on a subsequent encode failure. -/

/-- Outcomes of the four effectful steps of `Save`. -/
structure SaveEnv where
  mkdirOk : Bool
  renameOk : Bool
  createOk : Bool
  encodeOk : Bool
  deriving Repr, DecidableEq

/-- Which of the two files exist in the program directory after `Save`
returns. -/
structure ProgramDirState where
  m4aExists : Bool
  xmlExists : Bool
  deriving Repr, DecidableEq

/-- `RadikoResult.Save`: final directory state and Go error. -/
def save (env : SaveEnv) : ProgramDirState × Option GoErr :=
  if env.mkdirOk = false then (⟨false, false⟩, some "mkdir error")
  else if env.renameOk = false then (⟨false, false⟩, some "rename error")
  else if env.createOk = false then (⟨true, false⟩, some "create error")
  else if env.encodeOk = false then (⟨true, true⟩, some "encode error")
  else (⟨true, true⟩, none)

/-! ## Metadata sidecar round-trip

`Save` writes the program with the `encoding/xml` encoder; the server method
`itemByDir` reads it back with the decoder.  The document is embedded as
an element tree; `encodeProg` follows the struct tags of `RadikoProg`
(five attributes, six child elements, in declaration order), and
`decodeProg` reads a `prog` element the way the Go decoder fills the
struct: attribute by name, each string field from the named child element
character data, absent names decoding to the empty string. -/

/-- XML element tree (attributes in order, children in order). -/
inductive Xml where
  | elem (name : String) (attrs : List (String × String)) (children : List Xml)
  | text (s : String)

/-- Value of the named attribute, `""` when absent. -/
def xmlAttr (attrs : List (String × String)) (name : String) : String :=
  match attrs.find? (fun a => a.1 == name) with
  | some a => a.2
  | none => ""

/-- Character data directly under the named child element, `""` when the
child is absent. -/
def childElemText (children : List Xml) (name : String) : String :=
  match children.find? (fun c => match c with
    | .elem n _ _ => n == name
    | .text _ => false) with
  | some (.elem _ _ gc) =>
    gc.foldl (fun acc c => match c with
      | .text s => acc ++ s
      | .elem _ _ _ => acc) ""
  | _ => ""

/-- The sidecar document `Save` encodes for a program. -/
def encodeProg (p : RadikoProg) : Xml :=
  .elem "prog"
    [("ft", p.ft), ("to", p.«to»), ("ftl", p.ftl), ("tol", p.tol),
     ("dur", p.dur)]
    [.elem "title" [] [.text p.title],
     .elem "subtitle" [] [.text p.subtitle],
     .elem "pfm" [] [.text p.pfm],
     .elem "desc" [] [.text p.desc],
     .elem "info" [] [.text p.info],
     .elem "url" [] [.text p.url]]

/-- Decoding a document into `RadikoProg` (the `XMLName xml:"prog"` tag
makes a differently named root element a decode error, `none`). -/
def decodeProg (x : Xml) : Option RadikoProg :=
  match x with
  | .elem "prog" attrs children =>
    some { ft := xmlAttr attrs "ft"
           «to» := xmlAttr attrs "to"
           ftl := xmlAttr attrs "ftl"
           tol := xmlAttr attrs "tol"
           dur := xmlAttr attrs "dur"
           title := childElemText children "title"
           subtitle := childElemText children "subtitle"
           pfm := childElemText children "pfm"
           desc := childElemText children "desc"
           info := childElemText children "info"
           url := childElemText children "url" }
  | _ => none

/-! ## Stage-2 auth body parse (`Radiko.auth`)

The auth-completion handler matches the body against the regexp
`(.*),(.*),(.*)` with `FindAllStringSubmatch(·, -1)`.  `.` excludes
newlines and the groups are greedy, so per line the regexp matches iff
the line splits into at least three comma-separated fields, in which
case the single leftmost match spans the whole line with the first group
taking everything up to the second-to-last comma.  The guard
`len(matches) == 1 && len(matches[0]) != 4` is then evaluated, and
otherwise `matches[0][1]` is read — an index-out-of-range fault when no
line matched. -/

/-- Split a character list at every occurrence of `sep` (the semantics
of `strings.Split`: the empty input gives one empty field, a trailing
separator a trailing empty field). -/
def splitChar (sep : Char) : List Char → List (List Char)
  | [] => [[]]
  | x :: rest =>
    let r := splitChar sep rest
    if x = sep then [] :: r
    else (x :: r.headD []) :: r.tail

/-- String-level split on a separator character. -/
def goSplit (s : String) (sep : Char) : List String :=
  (splitChar sep s.data).map (fun cs => ⟨cs⟩)

/-- The submatch record `[full, g1, g2, g3]` of the leftmost regexp
match within one line, when the line has at least three fields. -/
def auth2LineMatch (line : String) : Option (List String) :=
  let parts := goSplit line ','
  if 3 ≤ parts.length then
    some [line,
          String.intercalate "," (parts.take (parts.length - 2)),
          (parts.drop (parts.length - 2)).headD "",
          (parts.drop (parts.length - 1)).headD ""]
  else none

/-- `FindAllStringSubmatch(body, -1)` for the fixed regexp: one match
per line having at least three comma-separated fields. -/
def auth2FindAllSubmatch (body : String) : List (List String) :=
  (goSplit body '\n').filterMap auth2LineMatch

/-- What the stage-2 response handler does with a body. -/
inductive Auth2Outcome where
  /-- runtime fault: `matches[0][1]` with no match. -/
  | panic
  /-- the returned Go error. -/
  | err (msg : String)
  /-- the parsed area (first capture group of the first match). -/
  | ok (area : String)
  deriving Repr, DecidableEq

/-- The stage-2 body handling of `Radiko.auth`, with its guard written
exactly as in the source. -/
def auth2ParseBody (body : String) : Auth2Outcome :=
  let ms := auth2FindAllSubmatch body
  if ms.length = 1 && (ms.headD []).length ≠ 4 then .err "failed to auth"
  else
    match ms.headD [] with
    | _full :: g1 :: _ => .ok g1
    | _ => .panic

/-! ## Concrete evaluation data

A small concrete schedule (the test scenario of the spec) used to
evaluate the theorems on closed inputs. -/

/-- A concrete program: noon to 13:00 on 2024-01-01. -/
def progW : RadikoProg :=
  { ft := "20240101120000", «to» := "20240101130000", ftl := "1200",
    tol := "1300", dur := "3600", title := "Morning Show", subtitle := "",
    pfm := "DJ Test", desc := "a test program", info := "", url := "" }

/-- A concrete one-station schedule listing `progW` under `TEST1`. -/
def progsW : RadikoPrograms :=
  { stations := [{ id := "TEST1", name := "Test Station", progs := [progW] }] }

/-! ## Helper lemmas -/

/-- Two same-length suffix patterns cannot both match: a path ending in
`avconv` does not end in `ffmpeg`. -/
theorem goMatchSuffix_avconv_not_ffmpeg (path : String)
    (h : goMatchSuffix "avconv" path = true) :
    goMatchSuffix "ffmpeg" path = false := by
  unfold goMatchSuffix at *
  by_contra hf
  rw [Bool.not_eq_false] at hf
  have h1 := List.isSuffixOf_iff_suffix.mp h
  have h2 := List.isSuffixOf_iff_suffix.mp hf
  have hlen : ("avconv".data).length = ("ffmpeg".data).length := by decide
  rcases List.suffix_or_suffix_of_suffix h1 h2 with hs | hs
  · exact absurd (List.IsSuffix.eq_of_length hs hlen) (by decide)
  · exact absurd (List.IsSuffix.eq_of_length hs hlen.symm) (by decide)

/-- When every attempt fails, the loop spends its whole budget: one
attempt per budget unit plus the final one, each retry preceded by the
fixed 10-second backoff. -/
theorem runFromAux_allFail (attempt : Nat → AttemptOutcome)
    (h : ∀ i, (attempt i).err.isSome = true) :
    ∀ budget idx, (runFromAux attempt budget idx).attempts = budget + 1 ∧
      (runFromAux attempt budget idx).backoffs = List.replicate budget 10 := by
  intro budget
  induction budget with
  | zero =>
    intro idx
    obtain ⟨e, he⟩ := Option.isSome_iff_exists.mp (h idx)
    simp [runFromAux, he]
  | succ b ih =>
    intro idx
    obtain ⟨e, he⟩ := Option.isSome_iff_exists.mp (h idx)
    have := ih (idx + 1)
    simp [runFromAux, he, this.1, this.2, List.replicate]
    omega

/-- On a program list whose timestamps all parse, the inner scan is the
first-match search for a containing window. -/
theorem scanProgs_eq_find (now : Int) (ps : List RadikoProg)
    (h : ∀ p ∈ ps, (RadikoProg.ftTime p).isSome ∧ (RadikoProg.toTime p).isSome) :
    scanProgs now ps = .ok (ps.find? (progContains now)) := by
  induction ps with
  | nil => rfl
  | cons p rest ih =>
    obtain ⟨hf, ht⟩ := h p (List.mem_cons_self p rest)
    obtain ⟨ft, hft⟩ := Option.isSome_iff_exists.mp hf
    obtain ⟨tt, htt⟩ := Option.isSome_iff_exists.mp ht
    have hrest := ih (fun q hq => h q (List.mem_cons_of_mem _ hq))
    by_cases hc : (ft ≤ now ∧ now < tt)
    · simp [scanProgs, hft, htt, hc.1, hc.2, List.find?, progContains]
    · have hcb : progContains now p = false := by
        simp [progContains, hft, htt]
        omega
      rw [List.find?_cons_of_neg _ (by simp [hcb])]
      simp only [scanProgs, hft, htt]
      rw [if_neg (by simpa [Decidable.not_and_iff_or_not] using hc)]
      exact hrest

/-- On a well-formed schedule, the station scan computes exactly the
first-match search `currentProgramSpec` over the flattened program lists
of the matching stations. -/
theorem stations_mk (ss : List RadikoStation) :
    (RadikoPrograms.mk ss).stations = ss := rfl

theorem scanStations_eq_find (station : String) (now : Int)
    (ss : List RadikoStation)
    (h : ∀ s ∈ ss, s.id == station →
      ∀ p ∈ s.progs, (RadikoProg.ftTime p).isSome ∧ (RadikoProg.toTime p).isSome) :
    scanStations station now ss = currentProgramSpec ⟨ss⟩ station now := by
  induction ss with
  | nil => rfl
  | cons s rest ih =>
    have hrest := ih (fun t ht => h t (List.mem_cons_of_mem _ ht))
    simp only [currentProgramSpec, stationPrograms, stations_mk] at hrest ⊢
    by_cases hid : (s.id == station) = true
    · have hps := h s (List.mem_cons_self s rest) hid
      rw [scanStations, if_pos hid, scanProgs_eq_find now s.progs hps]
      simp only [List.filter_cons, hid, if_true, List.flatMap_cons,
        List.find?_append]
      cases hfind : s.progs.find? (progContains now) with
      | some p => simp [hfind]
      | none => simp only [hfind, Option.none_or]; exact hrest
    · have hidf : (s.id == station) = false := by simpa using hid
      rw [scanStations, if_neg hid]
      simp only [List.filter_cons, hidf, Bool.false_eq_true, if_false]
      exact hrest

/-- The inner scan only returns a program both of whose timestamps
parse (the returned program passed the window test). -/
theorem scanProgs_ok_parses (now : Int) (ps : List RadikoProg)
    (p : RadikoProg) (h : scanProgs now ps = .ok (some p)) :
    ∃ ft tt, RadikoProg.ftTime p = some ft ∧ RadikoProg.toTime p = some tt := by
  induction ps with
  | nil => simp [scanProgs] at h
  | cons q rest ih =>
    rw [scanProgs] at h
    cases hft : RadikoProg.ftTime q with
    | none => simp [hft] at h
    | some ft =>
      simp only [hft] at h
      cases htt : RadikoProg.toTime q with
      | none => simp [htt] at h
      | some tt =>
        simp only [htt] at h
        by_cases hc : (decide (ft ≤ now) && decide (now < tt)) = true
        · rw [if_pos hc] at h
          have hq : q = p := by simpa using h
          exact ⟨ft, tt, hq ▸ hft, hq ▸ htt⟩
        · rw [if_neg hc] at h
          exact ih h

/-- A successful station scan only returns a program both of whose
timestamps parse. -/
theorem scanStations_ok_parses (station : String) (now : Int)
    (ss : List RadikoStation) (p : RadikoProg)
    (h : scanStations station now ss = .ok p) :
    ∃ ft tt, RadikoProg.ftTime p = some ft ∧ RadikoProg.toTime p = some tt := by
  induction ss with
  | nil => simp [scanStations] at h
  | cons s rest ih =>
    rw [scanStations] at h
    by_cases hid : (s.id == station) = true
    · rw [if_pos hid] at h
      cases hscan : scanProgs now s.progs with
      | error e => rw [hscan] at h; cases h
      | ok o =>
        rw [hscan] at h
        cases o with
        | none => exact ih h
        | some q =>
          have hq : q = p := by simpa using h
          exact scanProgs_ok_parses now s.progs p (hq ▸ hscan)
    · rw [if_neg hid] at h
      exact ih h

/-- Every submatch record the fixed regexp produces has exactly four
entries (the full match plus three capture groups). -/
theorem auth2Submatch_length (body : String) (m : List String)
    (hm : m ∈ auth2FindAllSubmatch body) : m.length = 4 := by
  simp only [auth2FindAllSubmatch, List.mem_filterMap] at hm
  obtain ⟨line, _, hline⟩ := hm
  unfold auth2LineMatch at hline
  by_cases hlen : 3 ≤ (goSplit line ',').length
  · rw [if_pos hlen] at hline
    cases hline
    rfl
  · rw [if_neg hlen] at hline
    cases hline

/-! ## Claim theorems -/

/-- C1: in a session in which every capture attempt returns an error,
the supervisor performs exactly 6 attempts (the initial one plus 5
retries), each retry preceded by the fixed 10-second backoff, then
terminates; a 7th attempt is never started. -/
theorem claim_c1_retry_ceiling (attempt : Nat → AttemptOutcome)
    (h : ∀ i, (attempt i).err.isSome = true) :
    (runModel attempt).attempts = 6 ∧
    (runModel attempt).backoffs = List.replicate 5 10 := by
  have := runFromAux_allFail attempt h 5 0
  simpa [runModel] using this

/-- Witness for C1 at the everywhere-failing attempt sequence. -/
theorem claim_c1_witness :
    (runModel (fun _ => ⟨none, some "rtmpdump exited with status 1"⟩)).attempts
        = 6 ∧
    (runModel (fun _ => ⟨none, some "rtmpdump exited with status 1"⟩)).backoffs
        = List.replicate 5 10 :=
  claim_c1_retry_ceiling _ (fun _ => rfl)

/-- C2: on a schedule whose listed programs for the station all carry
parseable timestamps, the current-program lookup equals the first-match
search: it returns the first program listed under a station with the
requested id whose window satisfies `ft ≤ now < to` (start inclusive,
end exclusive), and returns the not-found error exactly when no listed
program of that station contains `now`, including when no station has
that id. -/
theorem claim_c2_current_program (progs : RadikoPrograms) (station : String)
    (now : Int) (h : WellFormedFor progs station) :
    nowProgram progs station now = currentProgramSpec progs station now := by
  have := scanStations_eq_find station now progs.stations h
  simpa [nowProgram] using this

/-- Witness for C2 on the concrete schedule at 12:30 local time. -/
theorem claim_c2_witness :
    WellFormedFor progsW "TEST1" ∧
    nowProgram progsW "TEST1" ((parseRadikoTime "20240101123000").getD 0) =
      currentProgramSpec progsW "TEST1"
        ((parseRadikoTime "20240101123000").getD 0) ∧
    nowProgram progsW "TEST1" ((parseRadikoTime "20240101123000").getD 0) =
      .ok progW :=
  ⟨by decide, claim_c2_current_program progsW "TEST1" _ (by decide), by rfl⟩

/-- C3 (code bug): on the stage-2 body `JP13` — fewer than 3
comma-separated fields — the handler faults (index out of range) rather
than returning the "failed to auth" error; indeed no body at all can
reach that error: every outcome is either the fault or a parsed area. -/
theorem claim_c3_auth_parse :
    auth2ParseBody "JP13" = Auth2Outcome.panic ∧
    ∀ body : String, auth2ParseBody body = Auth2Outcome.panic ∨
      ∃ a, auth2ParseBody body = Auth2Outcome.ok a := by
  refine ⟨by decide, ?_⟩
  intro body
  unfold auth2ParseBody
  cases hms : auth2FindAllSubmatch body with
  | nil => left; simp [hms]
  | cons m rest =>
    have h4 : m.length = 4 := auth2Submatch_length body m (by simp [hms])
    cases m with
    | nil => simp at h4
    | cons a m1 =>
      cases m1 with
      | nil => simp at h4
      | cons b tail =>
        right
        exact ⟨b, by simp [hms, h4]⟩

/-- C4: once an attempt has reached the download pipeline, the stat of
the output path gates the result: a failed stat yields no result and
only the pipeline error; an existing output file yields a usable result
referencing that file alongside whatever error the pipeline reported. -/
theorem claim_c4_record_stat (env : AttemptEnv) (output station : String)
    (buffer : Int) (tok area : String) (progs : RadikoPrograms)
    (prog : RadikoProg)
    (hauth : env.auth = .ok (tok, area))
    (hsched : env.schedule = .ok progs)
    (hprog : nowProgram progs station env.now = .ok prog) :
    (env.statOk = false →
      record env output station buffer = (none, env.downloadErr)) ∧
    (env.statOk = true →
      record env output station buffer =
        (some ⟨output, prog, station⟩, env.downloadErr)) := by
  obtain ⟨ft, tt, hft, htt⟩ :=
    scanStations_ok_parses station env.now progs.stations prog hprog
  unfold record
  simp only [hauth, hsched, hprog, htt, hft]
  constructor <;> intro hs <;> simp [hs]

/-- Witness for C4: a reached download with a process error and a
surviving output file yields the result and the error together. -/
theorem claim_c4_witness :
    record
        { auth := .ok ("token", "JP13"), schedule := .ok progsW,
          now := (parseRadikoTime "20240101123000").getD 0,
          downloadErr := some "broken pipe", statOk := true }
        "/tmp/radiko_0.m4a" "TEST1" 60 =
      (some ⟨"/tmp/radiko_0.m4a", progW, "TEST1"⟩, some "broken pipe") :=
  (claim_c4_record_stat _ "/tmp/radiko_0.m4a" "TEST1" 60 "token" "JP13"
    progsW progW rfl rfl (by rfl)).2 rfl

/-- C5: the merge step runs iff more than one output was collected:
zero outputs is the error "empty outputs" with no merge; exactly one
output becomes the session result unchanged with no merge; more than one
output causes exactly one concat invocation joining the outputs in
capture order, whose successful result carries the program and station
of the first output. -/
theorem claim_c5_merge (tempDir converter : String)
    (results : List RadikoResult) (cmdErr : Option GoErr) :
    ((RadikoRun tempDir converter results cmdErr).2.length = 1 ↔
      1 < results.length) ∧
    (results = [] →
      RadikoRun tempDir converter results cmdErr =
        (.error "empty outputs", [])) ∧
    (∀ r, results = [r] →
      RadikoRun tempDir converter results cmdErr = (.ok r, [])) ∧
    (1 < results.length →
      (RadikoRun tempDir converter results cmdErr).2 =
        [⟨concatArgs converter tempDir results⟩] ∧
      (∀ r0 rest, results = r0 :: rest → cmdErr = none →
        (RadikoRun tempDir converter results cmdErr).1 =
          .ok ⟨concatOutputPath tempDir, r0.prog, r0.station⟩)) := by
  match results with
  | [] => simp [RadikoRun]
  | [r] => simp [RadikoRun]
  | r0 :: r1 :: rest =>
    refine ⟨?_, by simp, ?_, ?_⟩
    · cases cmdErr <;> simp [RadikoRun, ConcatOutput]
    · intro r hr; simp at hr
    · intro _
      constructor
      · cases cmdErr <;> simp [RadikoRun, ConcatOutput]
      · intro q0 qrest hq hcmd
        have hq0 : q0 = r0 := by
          have := hq
          injection this with h1 _
          exact h1.symm
        subst hq0 hcmd
        simp [RadikoRun, ConcatOutput]

/-- Witness for C5 with two collected outputs and a successful concat. -/
theorem claim_c5_witness :
    (RadikoRun "/tmp" "/usr/bin/ffmpeg"
        [⟨"/tmp/radiko_0.m4a", progW, "TEST1"⟩,
         ⟨"/tmp/radiko_1.m4a", progW, "TEST1"⟩] none).2 =
      [⟨concatArgs "/usr/bin/ffmpeg" "/tmp"
        [⟨"/tmp/radiko_0.m4a", progW, "TEST1"⟩,
         ⟨"/tmp/radiko_1.m4a", progW, "TEST1"⟩]⟩] ∧
    (RadikoRun "/tmp" "/usr/bin/ffmpeg"
        [⟨"/tmp/radiko_0.m4a", progW, "TEST1"⟩,
         ⟨"/tmp/radiko_1.m4a", progW, "TEST1"⟩] none).1 =
      .ok ⟨concatOutputPath "/tmp", progW, "TEST1"⟩ := by
  have h := claim_c5_merge "/tmp" "/usr/bin/ffmpeg"
    [⟨"/tmp/radiko_0.m4a", progW, "TEST1"⟩,
     ⟨"/tmp/radiko_1.m4a", progW, "TEST1"⟩] none
  exact ⟨(h.2.2.2 (by decide)).1,
    (h.2.2.2 (by decide)).2 _ _ rfl rfl⟩

/-- C6 counterexample: when the audio move succeeds and the sidecar
creation fails, `Save` returns leaving the audio file present and the
metadata sidecar absent — the both-or-neither invariant of the claim is
violated by this execution. -/
theorem claim_c6_counterexample :
    (save ⟨true, true, false, true⟩).1.m4aExists = true ∧
    (save ⟨true, true, false, true⟩).1.xmlExists = false ∧
    (save ⟨true, true, false, true⟩).2 = some "create error" := by
  decide

/-- C6 amended: after a `Save` that returns no error both files exist;
the sidecar never exists without the audio file; but an erroring `Save`
can leave the audio file without the sidecar (the audio move is not
rolled back), so the invariant holds one-sidedly only. -/
theorem claim_c6_amended (env : SaveEnv) :
    ((save env).2 = none →
      (save env).1.m4aExists = true ∧ (save env).1.xmlExists = true) ∧
    ((save env).1.xmlExists = true → (save env).1.m4aExists = true) ∧
    ((save env).1.m4aExists = true → (save env).1.xmlExists = false →
      (save env).2.isSome = true) := by
  obtain ⟨a, b, c, d⟩ := env
  cases a <;> cases b <;> cases c <;> cases d <;> decide

/-- Witness for C6 amended on the all-success environment. -/
theorem claim_c6_witness :
    (save ⟨true, true, true, true⟩).1.m4aExists = true ∧
    (save ⟨true, true, true, true⟩).1.xmlExists = true :=
  (claim_c6_amended ⟨true, true, true, true⟩).1 (by decide)

/-- C7: a program serialized to the metadata sidecar document and parsed
back yields field-for-field equality, in particular on title, start and
end timestamps, performer and description. -/
theorem claim_c7_roundtrip (p : RadikoProg) :
    ∃ q, decodeProg (encodeProg p) = some q ∧ q.title = p.title ∧
      q.ft = p.ft ∧ q.«to» = p.«to» ∧ q.pfm = p.pfm ∧ q.desc = p.desc := by
  refine ⟨p, ?_, rfl, rfl, rfl, rfl, rfl⟩
  rfl

/-- C8 counterexample: the capture call drains its completion signal
with no timeout, so a signal arriving 100 seconds after cancellation is
still waited for — the claimed 10-second bound does not hold of the
capture call, and with no signal at all it never returns. -/
theorem claim_c8_counterexample :
    downloadCancelDrain (some (100, some "killed")) =
      WaitOutcome.received (some "killed") 100 ∧
    ¬ ReturnsWithin 10 (downloadCancelDrain (some (100, some "killed"))) ∧
    downloadCancelDrain none = WaitOutcome.neverReturns := by
  exact ⟨rfl, by decide, rfl⟩

/-- C8 amended: on cancellation the supervisor drains within a bounded
10 seconds and keeps every attempt result that had already completed —
the returned list extends the completed results in order, and a signal
drained within the bound also delivers the in-flight result; the
capture call instead waits for the completion signal without bound,
reporting the drained error when one arrives (never returning when none
does) and substituting the cancellation error of the context only when
the drained error is nil. -/
theorem claim_c8_amended (signal : Option (Nat × Option GoErr)) :
    ReturnsWithin 10 (runCancelDrain signal) ∧
    (∀ acc inflight, ∃ extra,
      (runCancel acc inflight signal).2 = acc ++ extra) ∧
    (∀ acc r t e, t ≤ 10 →
      (runCancel acc (some r) (some (t, e))).2 = acc ++ [r]) ∧
    downloadCancelDrain none = WaitOutcome.neverReturns ∧
    (∀ t e, downloadCancelDrain (some (t, e)) = WaitOutcome.received e t) ∧
    (∀ c, downloadCancelErr none c = c) ∧
    (∀ c e, downloadCancelErr (some e) c = e) := by
  refine ⟨?_, ?_, ?_, rfl, fun t e => rfl, fun c => rfl, fun c e => rfl⟩
  · match signal with
    | none => simp [runCancelDrain, ReturnsWithin]
    | some (t, e) =>
      by_cases hle : t ≤ 10
      · simp [runCancelDrain, hle, ReturnsWithin]
      · simp [runCancelDrain, hle, ReturnsWithin]
  · intro acc inflight
    unfold runCancel
    cases hdrain : runCancelDrain signal with
    | received e t =>
      cases inflight with
      | some r => exact ⟨[r], rfl⟩
      | none => exact ⟨[], rfl⟩
    | timedOut t => exact ⟨[], by simp⟩
    | neverReturns => exact ⟨[], by simp⟩
  · intro acc r t e hle
    simp [runCancel, runCancelDrain, hle]

/-- Witness for C8 amended: a completed result is kept across
cancellation, and a signal drained at 3 seconds delivers the in-flight
result as well. -/
theorem claim_c8_witness :
    (runCancel [⟨"/tmp/radiko_0.m4a", progW, "TEST1"⟩]
        (some ⟨"/tmp/radiko_1.m4a", progW, "TEST1"⟩)
        (some (3, some "rtmpdump killed"))).2 =
      [⟨"/tmp/radiko_0.m4a", progW, "TEST1"⟩] ++
        [⟨"/tmp/radiko_1.m4a", progW, "TEST1"⟩] :=
  (claim_c8_amended (some (3, some "rtmpdump killed"))).2.2.1
    [⟨"/tmp/radiko_0.m4a", progW, "TEST1"⟩]
    ⟨"/tmp/radiko_1.m4a", progW, "TEST1"⟩ 3 (some "rtmpdump killed")
    (by decide)

/-- C9: the bitrate parameter has no effect on the constructed decode
command, whichever converter the path resolves to (both templates copy
the audio stream and never mention the bitrate). -/
theorem claim_c9_bitrate_ignored (path output title author b1 b2 : String) :
    newConverterCmd path b1 output title author =
      newConverterCmd path b2 output title author := rfl

/-- C10: with an avconv converter path the decode command is the fixed
eight-argument vector without any metadata arguments, independent of the
title and author parameters; title, artist and genre metadata are
embedded exactly by the ffmpeg template. -/
theorem claim_c10_metadata (path bitrate output title author : String)
    (h : goMatchSuffix "avconv" path = true) :
    newConverterCmd path bitrate output title author =
      .ok (newAvconvCmd path bitrate output) ∧
    (newAvconvCmd path bitrate output).args =
      [path, "-y", "-i", "-", "-vn", "-c:a", "copy", output] ∧
    (∀ t2 a2, newConverterCmd path bitrate output t2 a2 =
      newConverterCmd path bitrate output title author) ∧
    (∀ fp, goMatchSuffix "ffmpeg" fp = true →
      newConverterCmd fp bitrate output title author =
        .ok (newFfmpegCmd fp bitrate output title author) ∧
      "-metadata" ∈ (newFfmpegCmd fp bitrate output title author).args ∧
      "title=" ++ title ∈ (newFfmpegCmd fp bitrate output title author).args ∧
      "artist=" ++ author ∈
        (newFfmpegCmd fp bitrate output title author).args ∧
      "genre=radio" ∈ (newFfmpegCmd fp bitrate output title author).args) := by
  have hnf := goMatchSuffix_avconv_not_ffmpeg path h
  refine ⟨?_, rfl, ?_, ?_⟩
  · unfold newConverterCmd
    rw [hnf]
    simp [h]
  · intro t2 a2
    unfold newConverterCmd
    rw [hnf]
    simp [h]
  · intro fp hfp
    refine ⟨?_, ?_, ?_, ?_, ?_⟩
    · unfold newConverterCmd
      rw [hfp]
      simp
    · simp [newFfmpegCmd]
    · simp [newFfmpegCmd]
    · simp [newFfmpegCmd]
    · simp [newFfmpegCmd]

/-- Witness for C10 at a concrete avconv path. -/
theorem claim_c10_witness :
    newConverterCmd "/usr/bin/avconv" "48000" "/tmp/out.m4a" "T" "A" =
      .ok (newAvconvCmd "/usr/bin/avconv" "48000" "/tmp/out.m4a") :=
  (claim_c10_metadata "/usr/bin/avconv" "48000" "/tmp/out.m4a" "T" "A"
    (by decide)).1

end Radicast
